import Mathlib

/-!
# Verification of the monkey-ts interpreter core

Shallow embedding of the lexer → parser → evaluator pipeline of the
monkey-ts repository (token model, lexer, Pratt parser, AST rendering,
runtime object model, lexical environment, evaluator, builtins), together
with theorems settling the specification claims about it.

Modelling conventions:
* JavaScript numbers are modelled by `JsNum`: an exact integer payload
  (`JsNum.int`), plus the non-finite values `Infinity`, `-Infinity` and
  `NaN` that JavaScript division by zero produces.  Integer arithmetic is
  treated exactly (the interpreter only ever holds integral finite values,
  all well inside the double-exact range for the programs considered).
* Loops and general recursion in the source are modelled with an explicit
  fuel parameter so that every definition is structurally recursive and
  computable by kernel reduction.  Fuel exhaustion is a distinguished
  outcome that no theorem ever treats as normal behaviour.
* Mutable state (the parser's token generator, the evaluator's
  environment) is threaded explicitly through the translated functions.
-/

namespace Monkey

/-! ## Token model — src/token/token.ts -/

inductive TokenType where
  | ILLEGAL | EOF
  | IDENT | INT | STRING
  | ASSIGN | PLUS | MINUS | BANG | ASTERISK | SLASH | LT | GT | EQ | NOT_EQ
  | COMMA | SEMICOLON | COLON | LPAREN | RPAREN | LBRACE | RBRACE | LBRACKET | RBRACKET
  | FUNCTION | LET | TRUE | FALSE | IF | ELSE | RETURN
  deriving DecidableEq, Repr

/-- The string value of each member of the TypeScript string enum `TokenType`. -/
def TokenType.name : TokenType → String
  | .ILLEGAL => "ILLEGAL"
  | .EOF => "EOF"
  | .IDENT => "IDENT"
  | .INT => "INT"
  | .STRING => "STRING"
  | .ASSIGN => "ASSIGN"
  | .PLUS => "PLUS"
  | .MINUS => "MINUS"
  | .BANG => "BANG"
  | .ASTERISK => "ASTERISK"
  | .SLASH => "SLASH"
  | .LT => "LT"
  | .GT => "GT"
  | .EQ => "EQ"
  | .NOT_EQ => "NOT_EQ"
  | .COMMA => "COMMA"
  | .SEMICOLON => "SEMICOLON"
  | .COLON => "COLON"
  | .LPAREN => "LPAREN"
  | .RPAREN => "RPAREN"
  | .LBRACE => "LBRACE"
  | .RBRACE => "RBRACE"
  | .LBRACKET => "LBRACKET"
  | .RBRACKET => "RBRACKET"
  | .FUNCTION => "FUNCTION"
  | .LET => "LET"
  | .TRUE => "TRUE"
  | .FALSE => "FALSE"
  | .IF => "IF"
  | .ELSE => "ELSE"
  | .RETURN => "RETURN"

structure Token where
  type : TokenType
  literal : String
  deriving DecidableEq, Repr

/-- `EOF_TOKEN` from src/lexer/lexer.ts. -/
def EOF_TOKEN : Token := { type := .EOF, literal := "" }

/-! ## Lexer helpers — src/util (isLetter, isDigit, isWhitespace, keywords)
and the lexer helper module (skipWhitespace, readString, readIdentifier,
readNumber).  The source addresses the input by cursor; we model the input
as a `List Char` and the cursor as a `Nat` index. -/

def isLetter (ch : Option Char) : Bool :=
  match ch with
  | none => false
  | some c => c.isAlpha || c = '_'

def isDigit (ch : Option Char) : Bool :=
  match ch with
  | none => false
  | some c => c.isDigit

def isWhitespace (ch : Option Char) : Bool :=
  match ch with
  | none => false
  | some c => c = ' ' || c = '\t' || c = '\n' || c = '\r'

/-- `Keywords` lookup plus the `IDENT` fallback (`getTokenTypeFromLiteral`). -/
def getTokenTypeFromLiteral (literal : String) : TokenType :=
  if literal = "fn" then .FUNCTION
  else if literal = "let" then .LET
  else if literal = "true" then .TRUE
  else if literal = "false" then .FALSE
  else if literal = "if" then .IF
  else if literal = "else" then .ELSE
  else if literal = "return" then .RETURN
  else .IDENT

def isEndOfFile (inputLength position : Nat) : Bool := inputLength ≤ position

/-- `skipWhitespace`: advance the cursor past whitespace.  The fuel bounds
the cursor recursion; any fuel ≥ the input length is sufficient. -/
def skipWhitespace (input : List Char) : Nat → Nat → Nat
  | 0, position => position
  | fuel + 1, position =>
    if isEndOfFile input.length position || !isWhitespace (input.get? position) then
      position
    else
      skipWhitespace input fuel (position + 1)

/-- `readString`/`readIdentifier`/`readNumber` share this shape: consume a
maximal run of characters satisfying `keep` starting at `currentPosition`,
returning the consumed literal and the stop position. -/
def readRun (keep : Option Char → Bool) (input : List Char) :
    Nat → Nat → String → String × Nat
  | 0, currentPosition, acc => (acc, currentPosition)
  | fuel + 1, currentPosition, acc =>
    let ch := input.get? currentPosition
    if input.length ≤ currentPosition || !keep ch then
      (acc, currentPosition)
    else
      readRun keep input fuel (currentPosition + 1)
        (acc ++ String.mk [ch.getD ' '])

def readString (input : List Char) (pos : Nat) : String × Nat :=
  readRun (fun ch => ch ≠ some '"' && ch.isSome) input (input.length + 1) pos ""

def readIdentifier (input : List Char) (pos : Nat) : String × Nat :=
  readRun isLetter input (input.length + 1) pos ""

def readNumber (input : List Char) (pos : Nat) : String × Nat :=
  readRun isDigit input (input.length + 1) pos ""

/-! ## Lexer core — `nextTokenFx` of src/lexer/lexer.ts: from an input and
a cursor, produce the next token and the new cursor. -/

def nextTokenFx (input : List Char) (cursor : Nat) : Token × Nat :=
  let p := skipWhitespace input (input.length + 1) cursor
  let ch := input.get? p
  let nextCh := input.get? (p + 1)
  if isEndOfFile input.length p then
    (EOF_TOKEN, p)
  else
    match ch with
    | some '=' =>
      if nextCh = some '=' then ({ type := .EQ, literal := "==" }, p + 2)
      else ({ type := .ASSIGN, literal := "=" }, p + 1)
    | some ';' => ({ type := .SEMICOLON, literal := ";" }, p + 1)
    | some ':' => ({ type := .COLON, literal := ":" }, p + 1)
    | some ',' => ({ type := .COMMA, literal := "," }, p + 1)
    | some '+' => ({ type := .PLUS, literal := "+" }, p + 1)
    | some '-' => ({ type := .MINUS, literal := "-" }, p + 1)
    | some '*' => ({ type := .ASTERISK, literal := "*" }, p + 1)
    | some '/' => ({ type := .SLASH, literal := "/" }, p + 1)
    | some '!' =>
      if nextCh = some '=' then ({ type := .NOT_EQ, literal := "!=" }, p + 2)
      else ({ type := .BANG, literal := "!" }, p + 1)
    | some '{' => ({ type := .LBRACE, literal := "\x7b" }, p + 1)
    | some '}' => ({ type := .RBRACE, literal := "\x7d" }, p + 1)
    | some '(' => ({ type := .LPAREN, literal := "(" }, p + 1)
    | some ')' => ({ type := .RPAREN, literal := ")" }, p + 1)
    | some '[' => ({ type := .LBRACKET, literal := "[" }, p + 1)
    | some ']' => ({ type := .RBRACKET, literal := "]" }, p + 1)
    | some '<' => ({ type := .LT, literal := "<" }, p + 1)
    | some '>' => ({ type := .GT, literal := ">" }, p + 1)
    | some '"' =>
      let (strLiteral, position) := readString input (p + 1)
      ({ type := .STRING, literal := strLiteral }, position + 1)
    | _ =>
      if isLetter ch then
        let (identLiteral, position) := readIdentifier input p
        ({ type := getTokenTypeFromLiteral identLiteral, literal := identLiteral }, position)
      else if isDigit ch then
        let (numberLiteral, position) := readNumber input p
        ({ type := .INT, literal := numberLiteral }, position)
      else
        ({ type := .ILLEGAL, literal := (ch.map (String.mk [·])).getD "" }, cursor + 1)

/-- Repeatedly drive `nextTokenFx` from cursor 0 and collect the tokens
up to (excluding) the end-of-input token — the token sequence that the
repository's generator lexer yields before returning `EOF_TOKEN`. -/
def lexTokensAux (input : List Char) : Nat → Nat → List Token
  | 0, _ => []
  | fuel + 1, cursor =>
    let (token, cursor') := nextTokenFx input cursor
    if token.type = .EOF then []
    else token :: lexTokensAux input fuel cursor'

def lexTokens (source : String) : List Token :=
  lexTokensAux source.data (source.data.length + 1) 0

/-! ## AST model — src/ast/ast.ts and src/ast/types.ts.

`InfixExpression`'s constructor takes its operands in the source order
`(token, right, operator, left)`; the field names record which is which.
Block statements, consequences and function bodies are `Statement.block`
nodes.  The precedence enum members `LOWEST .. INDEX` are modelled by the
constructors `lowest .. index` (with `prefixOp` for `PREFIX`); `toNat`
gives each member its numeric value in the TypeScript enum. -/

structure Identifier where
  token : Token
  value : String
  deriving Repr

mutual
inductive Expression where
  | identifier (id : Identifier)
  | integerLiteral (token : Token) (value : Int)
  | stringLiteral (token : Token) (value : String)
  | booleanLiteral (token : Token) (value : Bool)
  | prefixExpr (token : Token) (operator : String) (right : Expression)
  | infixExpr (token : Token) (right : Expression) (operator : String) (left : Expression)
  | ifExpr (token : Token) (condition : Expression) (consequence : Statement)
      (alternative : Option Statement)
  | functionLiteral (token : Token) (parameters : List Identifier) (body : Statement)
  | callExpr (token : Token) (functionIdentifier : Expression)
      (functionArguments : List Expression)
  | arrayLiteral (token : Token) (elements : List Expression)
  | indexExpr (token : Token) (left : Expression) (index : Expression)
  | hashLiteral (token : Token) (pairs : List (Expression × Expression))
  deriving Repr

inductive Statement where
  | letStmt (token : Token) (name : Identifier) (value : Expression)
  | returnStmt (token : Token) (returnValue : Expression)
  | exprStmt (token : Token) (expression : Expression)
  | block (token : Token) (statements : List Statement)
  deriving Repr
end

structure Program where
  statements : List Statement
  deriving Repr

inductive ExpressionPrecedence where
  | lowest | equals | lessgreater | sum | product | prefixOp | call | index
  deriving DecidableEq, Repr

def ExpressionPrecedence.toNat : ExpressionPrecedence → Nat
  | .lowest => 0
  | .equals => 1
  | .lessgreater => 2
  | .sum => 3
  | .product => 4
  | .prefixOp => 5
  | .call => 6
  | .index => 7

/-- `TokenOperatorPrecedences` of src/ast/types.ts. -/
def TokenOperatorPrecedences : TokenType → Option ExpressionPrecedence
  | .EQ => some .equals
  | .NOT_EQ => some .equals
  | .LT => some .lessgreater
  | .GT => some .lessgreater
  | .PLUS => some .sum
  | .MINUS => some .sum
  | .SLASH => some .product
  | .ASTERISK => some .product
  | .LPAREN => some .call
  | .LBRACKET => some .index
  | _ => none

/-- `getPrecedence` of the parser helpers. -/
def getPrecedence (tokenType : TokenType) : ExpressionPrecedence :=
  (TokenOperatorPrecedences tokenType).getD .lowest

/-! ## AST rendering — the `toString` methods of src/ast/ast.ts, combined
into one fuel-indexed function over a sum of node kinds (statements render
expressions and vice versa).  Fuel at least the tree depth is sufficient;
the fuel-exhausted answer `""` is never reached in any theorem below. -/

inductive Node where
  | program (p : Program)
  | stmt (s : Statement)
  | expr (e : Expression)

def render : Nat → Node → String
  | 0, _ => ""
  | fuel + 1, .program p =>
    String.join (p.statements.map (fun st => render fuel (.stmt st)))
  | fuel + 1, .stmt s =>
    match s with
    | .letStmt token name value =>
      token.literal ++ " " ++ name.value ++ " = " ++ render fuel (.expr value) ++ ";"
    | .returnStmt token returnValue =>
      token.literal ++ " " ++ render fuel (.expr returnValue)
    | .exprStmt _ expression => render fuel (.expr expression)
    | .block _ statements =>
      String.join (statements.map (fun st => render fuel (.stmt st)))
  | fuel + 1, .expr e =>
    match e with
    | .identifier id => id.value
    | .integerLiteral token _ => token.literal
    | .stringLiteral token _ => token.literal
    | .booleanLiteral token _ => token.literal
    | .prefixExpr _ operator right =>
      "(" ++ operator ++ render fuel (.expr right) ++ ")"
    | .infixExpr _ right operator left =>
      "(" ++ render fuel (.expr left) ++ " " ++ operator ++ " "
        ++ render fuel (.expr right) ++ ")"
    | .ifExpr _ condition consequence alternative =>
      let alt := match alternative with
        | some a => " else " ++ render fuel (.stmt a)
        | none => ""
      "if " ++ render fuel (.expr condition) ++ " " ++ render fuel (.stmt consequence) ++ alt
    | .functionLiteral _ parameters body =>
      "(" ++ String.intercalate "," (parameters.map (·.value)) ++ ") "
        ++ render fuel (.stmt body)
    | .callExpr _ functionIdentifier functionArguments =>
      render fuel (.expr functionIdentifier) ++ " ("
        ++ String.intercalate ", " (functionArguments.map (fun a => render fuel (.expr a)))
        ++ ")"
    | .arrayLiteral _ elements =>
      "[" ++ String.intercalate "," (elements.map (fun el => render fuel (.expr el))) ++ "]"
    | .indexExpr _ left idx =>
      "(" ++ render fuel (.expr left) ++ "[" ++ render fuel (.expr idx) ++ "])"
    -- The `HashLiteral` class body is absent from the provided sources (it is
    -- only imported there); its rendering is unused by every claim below.
    | .hashLiteral _ _ => ""

/-- `Program.toString` joins the statement renderings with `""`. -/
def renderProgram (fuel : Nat) (p : Program) : String :=
  String.join (p.statements.map (fun st => render fuel (.stmt st)))

/-! ## Parser — the functional `parseProgram` of src/parser/parser.ts and
the helpers of the parser helper module (`peekable`, `getPrecedence`,
`getNextExpectedTokenPair`).

The lexer is consumed through the `peekable` adapter, which turns the
token generator into a stream of `{current, peek}` pairs whose last
element is `{EOF, none}`.  We model the mutable generator as the list of
pairs it has yet to produce, threaded through every parsing function.
Mutual recursion among the parsing functions is tied with an explicit
fuel-indexed record `ParserRec`, so every definition reduces in the
kernel; `parserFuelError` marks fuel exhaustion and is never reached with
adequate fuel. -/

structure PeekableToken where
  current : Token
  peek : Option Token
  deriving DecidableEq, Repr

abbrev Stream := List PeekableToken

/-- One `next()` call on the peekable generator.  A call after exhaustion
would yield `undefined` in JavaScript and crash the parser; no execution
path of the claims below reaches that state, and the model answers the
final `{EOF, none}` pair there. -/
def streamNext : Stream → PeekableToken × Stream
  | [] => ({ current := EOF_TOKEN, peek := none }, [])
  | p :: rest => (p, rest)

/-- The pairs the `peekable` generator yields for a token sequence that
ends by returning `EOF_TOKEN`, followed by its final `{EOF, none}`
return value. -/
def mkPairs : List Token → List PeekableToken
  | [] => []
  | [t] => [{ current := t, peek := some EOF_TOKEN }]
  | t :: u :: rest => { current := t, peek := some u } :: mkPairs (u :: rest)

def mkStream (tokens : List Token) : Stream :=
  mkPairs tokens ++ [{ current := EOF_TOKEN, peek := none }]

/-- `TokenTypeToLiteralMap` lookup with the enum-name fallback
(`getTokenTypeLiteral`). -/
def getTokenTypeLiteral (expected : TokenType) : String :=
  match expected with
  | .ASSIGN => "="
  | .PLUS => "+"
  | .MINUS => "-"
  | .BANG => "!"
  | .ASTERISK => "*"
  | .SLASH => "/"
  | .LT => "<"
  | .GT => ">"
  | .EQ => "=="
  | .NOT_EQ => "!="
  | .COMMA => ","
  | .SEMICOLON => ";"
  | .COLON => ":"
  | .LPAREN => "("
  | .RPAREN => ")"
  | .LBRACE => "\x7b"
  | .RBRACE => "\x7d"
  | .LBRACKET => "["
  | .RBRACKET => "]"
  | t => t.name

/-- `getNextExpectedTokenPair`: advance when the peeked token has the
expected type, otherwise report the parse error of the source. -/
def getNextExpectedTokenPair (tokenPair : PeekableToken) (expectedTokenType : TokenType)
    (s : Stream) : Except String (PeekableToken × Stream) :=
  let found := match tokenPair.peek with
    | some pk => pk.literal
    | none => "no token"
  if tokenPair.peek.map (·.type) = some expectedTokenType then
    .ok (streamNext s)
  else
    .error ("Next token expected to be " ++ getTokenTypeLiteral expectedTokenType
      ++ ", but found " ++ found ++ " instead.")

/-- The recursive entry points of the parser, one field per source
function through which a recursive cycle passes. -/
structure ParserRec where
  parseStatement : PeekableToken → Stream → Except String (Statement × Stream)
  parseExpression : PeekableToken → ExpressionPrecedence → Stream →
    Except String ((Expression × PeekableToken) × Stream)
  parseExpressionWithInfix : Expression → PeekableToken → ExpressionPrecedence → Stream →
    Except String ((Expression × PeekableToken) × Stream)
  parseStatements : PeekableToken → List Statement → Stream →
    Except String ((List Statement × PeekableToken) × Stream)
  parseArgumentsList : PeekableToken → List Expression → Stream →
    Except String ((List Expression × PeekableToken) × Stream)
  parseHashMap : PeekableToken → List (Expression × Expression) → Stream →
    Except String ((List (Expression × Expression) × PeekableToken) × Stream)
  parseFunctionParametersList : PeekableToken → List Identifier → Stream →
    Except String ((List Identifier × PeekableToken) × Stream)

def parserFuelError : String := "parser fuel exhausted"

/-- Skip an optional trailing semicolon (`if (peek?.type === SEMICOLON) lexer.next()`). -/
def skipPeekSemicolon (tokenPair : PeekableToken) (s : Stream) : Stream :=
  if tokenPair.peek.map (·.type) = some TokenType.SEMICOLON then (streamNext s).2 else s

def parseLetStatementF (P : ParserRec) (tokenPair : PeekableToken) (s : Stream) :
    Except String (Statement × Stream) := do
  let token := tokenPair.current
  let (nameTokenPair, s) ← getNextExpectedTokenPair tokenPair .IDENT s
  let nameToken := nameTokenPair.current
  let name : Identifier := ⟨nameToken, nameToken.literal⟩
  let (_, s) ← getNextExpectedTokenPair nameTokenPair .ASSIGN s
  let (expressionTokenPair, s) := streamNext s
  let ((value, nextToken), s) ← P.parseExpression expressionTokenPair .lowest s
  let s := skipPeekSemicolon nextToken s
  return (.letStmt token name value, s)

def parseReturnStatementF (P : ParserRec) (tokenPair : PeekableToken) (s : Stream) :
    Except String (Statement × Stream) := do
  let token := tokenPair.current
  let (returnToken, s) := streamNext s
  let ((expression, nextToken), s) ← P.parseExpression returnToken .lowest s
  let s := skipPeekSemicolon nextToken s
  return (.returnStmt token expression, s)

def parseExpressionStatementF (P : ParserRec) (tokenPair : PeekableToken) (s : Stream) :
    Except String (Statement × Stream) := do
  let token := tokenPair.current
  let ((expression, nextTokenPair), s) ← P.parseExpression tokenPair .lowest s
  let s := skipPeekSemicolon nextTokenPair s
  return (.exprStmt token expression, s)

def parseStatementF (P : ParserRec) (tokenPair : PeekableToken) (s : Stream) :
    Except String (Statement × Stream) :=
  match tokenPair.current.type with
  | .LET => parseLetStatementF P tokenPair s
  | .RETURN => parseReturnStatementF P tokenPair s
  | _ => parseExpressionStatementF P tokenPair s

def parseBlockStatementF (P : ParserRec) (tokenPair : PeekableToken) (s : Stream) :
    Except String ((Statement × PeekableToken) × Stream) := do
  let (nextTokenPair, s) ← getNextExpectedTokenPair tokenPair .LBRACE s
  let token := nextTokenPair.current
  let (statementTokenPair, s) := streamNext s
  let ((statements, latestTokenPair), s) ← P.parseStatements statementTokenPair [] s
  return ((.block token statements, latestTokenPair), s)

def parseStatementsF (P : ParserRec) (tokenPair : PeekableToken)
    (statements : List Statement) (s : Stream) :
    Except String ((List Statement × PeekableToken) × Stream) := do
  if tokenPair.current.type = .RBRACE then
    return ((statements, tokenPair), s)
  let (statement, s) ← P.parseStatement tokenPair s
  let (nextTokenPair, s) := streamNext s
  P.parseStatements nextTokenPair (statements ++ [statement]) s

def parseIdentifierF (tokenPair : PeekableToken) (s : Stream) :
    Except String ((Expression × PeekableToken) × Stream) :=
  .ok ((.identifier ⟨tokenPair.current, tokenPair.current.literal⟩, tokenPair), s)

/-- Accumulate the leading decimal-digit run. -/
def parseDigitsAux : List Char → Nat → Nat
  | [], acc => acc
  | c :: rest, acc =>
    if c.isDigit then parseDigitsAux rest (acc * 10 + (c.toNat - 48)) else acc

/-- `Number.parseInt(literal, 10)`: the number read from the literal's
leading digit run, `none` standing for `NaN` when there is none.  (An
`INT` token's literal is always a nonempty digit run.) -/
def parseIntBase10 (s : String) : Option Nat :=
  match s.data with
  | [] => none
  | c :: _ => if c.isDigit then some (parseDigitsAux s.data 0) else none

def parseIntegerLiteralF (tokenPair : PeekableToken) (s : Stream) :
    Except String ((Expression × PeekableToken) × Stream) :=
  let token := tokenPair.current
  match parseIntBase10 token.literal with
  | some value => .ok ((.integerLiteral token (Int.ofNat value), tokenPair), s)
  | none => .error "Could not parse NaN as integer"

def parseStringLiteralF (tokenPair : PeekableToken) (s : Stream) :
    Except String ((Expression × PeekableToken) × Stream) :=
  .ok ((.stringLiteral tokenPair.current tokenPair.current.literal, tokenPair), s)

def parseBooleanExpressionF (tokenPair : PeekableToken) (s : Stream) :
    Except String ((Expression × PeekableToken) × Stream) :=
  match tokenPair.current.type with
  | .TRUE => .ok ((.booleanLiteral tokenPair.current true, tokenPair), s)
  | .FALSE => .ok ((.booleanLiteral tokenPair.current false, tokenPair), s)
  | _ => .error "Could not parse undefined as boolean"

def parseGroupedExpressionF (P : ParserRec) (_ : PeekableToken) (s : Stream) :
    Except String ((Expression × PeekableToken) × Stream) := do
  let (tokenPair, s) := streamNext s
  let ((expression, expressionTokenPair), s) ← P.parseExpression tokenPair .lowest s
  let (closingParenTokenPair, s) ← getNextExpectedTokenPair expressionTokenPair .RPAREN s
  return ((expression, closingParenTokenPair), s)

def parsePrefixExpressionF (P : ParserRec) (tokenPair : PeekableToken) (s : Stream) :
    Except String ((Expression × PeekableToken) × Stream) := do
  let currentToken := tokenPair.current
  let operator := tokenPair.current.literal
  let (rightTokenPair, s) := streamNext s
  let ((expression, latestTokenPair), s) ← P.parseExpression rightTokenPair .prefixOp s
  return ((.prefixExpr currentToken operator expression, latestTokenPair), s)

def parseElseExpressionF (P : ParserRec) (tokenPair : PeekableToken) (s : Stream) :
    Except String ((Option Statement × PeekableToken) × Stream) := do
  if tokenPair.peek.map (·.type) ≠ some TokenType.ELSE then
    return ((none, tokenPair), s)
  let (alternativeToken, s) := streamNext s
  let ((blockStmt, latestTokenPair), s) ← parseBlockStatementF P alternativeToken s
  return ((some blockStmt, latestTokenPair), s)

def parseIfExpressionF (P : ParserRec) (tokenPair : PeekableToken) (s : Stream) :
    Except String ((Expression × PeekableToken) × Stream) := do
  let token := tokenPair.current
  let (_, s) ← getNextExpectedTokenPair tokenPair .LPAREN s
  let (conditionToken, s) := streamNext s
  let ((condition, conditionTokenPair), s) ← P.parseExpression conditionToken .lowest s
  let (consequenceToken, s) ← getNextExpectedTokenPair conditionTokenPair .RPAREN s
  let ((consequence, elseTokenPair), s) ← parseBlockStatementF P consequenceToken s
  let ((alternative, latestTokenPair), s) ← parseElseExpressionF P elseTokenPair s
  return ((.ifExpr token condition consequence alternative, latestTokenPair), s)

def parseFunctionParametersListF (P : ParserRec) (tokenPair : PeekableToken)
    (parameters : List Identifier) (s : Stream) :
    Except String ((List Identifier × PeekableToken) × Stream) := do
  let identifier : Identifier := ⟨tokenPair.current, tokenPair.current.literal⟩
  let parameters := parameters ++ [identifier]
  if tokenPair.peek.map (·.type) ≠ some TokenType.COMMA then
    return ((parameters, tokenPair), s)
  let (_, s) := streamNext s
  let (nextTokenPair, s) := streamNext s
  P.parseFunctionParametersList nextTokenPair parameters s

def parseFunctionParametersF (P : ParserRec) (tokenPair : PeekableToken) (s : Stream) :
    Except String ((List Identifier × PeekableToken) × Stream) := do
  let (_, s) ← getNextExpectedTokenPair tokenPair .LPAREN s
  let (nextTokenPair, s) := streamNext s
  if nextTokenPair.current.type = .RPAREN then
    return (([], nextTokenPair), s)
  let ((parameters, parametersTokenPair), s) ←
    P.parseFunctionParametersList nextTokenPair [] s
  let (latestTokenPair, s) ← getNextExpectedTokenPair parametersTokenPair .RPAREN s
  return ((parameters, latestTokenPair), s)

def parseFunctionLiteralF (P : ParserRec) (tokenPair : PeekableToken) (s : Stream) :
    Except String ((Expression × PeekableToken) × Stream) := do
  let token := tokenPair.current
  let ((parameters, parametersTokenPair), s) ← parseFunctionParametersF P tokenPair s
  let ((body, blockTokenPair), s) ← parseBlockStatementF P parametersTokenPair s
  return ((.functionLiteral token parameters body, blockTokenPair), s)

def parseArgumentsListF (P : ParserRec) (tokenPair : PeekableToken)
    (argumentsList : List Expression) (s : Stream) :
    Except String ((List Expression × PeekableToken) × Stream) := do
  let ((data, stateTokenPair), s) ← P.parseExpression tokenPair .lowest s
  let argumentsList := argumentsList ++ [data]
  if stateTokenPair.peek.map (·.type) ≠ some TokenType.COMMA then
    return ((argumentsList, stateTokenPair), s)
  let (_, s) := streamNext s
  let (nextTokenPair, s) := streamNext s
  P.parseArgumentsList nextTokenPair argumentsList s

def parseExpressionListF (P : ParserRec) (closerToken : TokenType) (s : Stream) :
    Except String ((List Expression × PeekableToken) × Stream) := do
  let (tokenPair, s) := streamNext s
  if tokenPair.current.type = closerToken then
    return (([], tokenPair), s)
  let ((data, stateTokenPair), s) ← P.parseArgumentsList tokenPair [] s
  let (latestTokenPair, s) ← getNextExpectedTokenPair stateTokenPair closerToken s
  return ((data, latestTokenPair), s)

def parseArrayLiteralF (P : ParserRec) (tokenPair : PeekableToken) (s : Stream) :
    Except String ((Expression × PeekableToken) × Stream) := do
  let token := tokenPair.current
  let ((argumentsList, latestTokenPair), s) ← parseExpressionListF P .RBRACKET s
  return ((.arrayLiteral token argumentsList, latestTokenPair), s)

/-- `parseHashMap`.  The JavaScript `Map` is keyed by freshly constructed
expression objects, which are pairwise distinct references, so each
`pairs.set` appends a new entry. -/
def parseHashMapF (P : ParserRec) (tokenPair : PeekableToken)
    (pairs : List (Expression × Expression)) (s : Stream) :
    Except String ((List (Expression × Expression) × PeekableToken) × Stream) := do
  if tokenPair.peek.map (·.type) = some TokenType.RBRACE then
    return ((pairs, tokenPair), s)
  let (keyTokenPair, s) := streamNext s
  let ((keyData, keyStateTokenPair), s) ← P.parseExpression keyTokenPair .lowest s
  let (_, s) ← getNextExpectedTokenPair keyStateTokenPair .COLON s
  let (valueTokenPair, s) := streamNext s
  let ((valueData, valueStateTokenPair), s) ← P.parseExpression valueTokenPair .lowest s
  let pairs := pairs ++ [(keyData, valueData)]
  if valueStateTokenPair.peek.map (·.type) ≠ some TokenType.RBRACE then
    let (tokenPair, s) ← getNextExpectedTokenPair valueStateTokenPair .COMMA s
    P.parseHashMap tokenPair pairs s
  else
    P.parseHashMap valueStateTokenPair pairs s

def parseHashLiteralF (P : ParserRec) (tokenPair : PeekableToken) (s : Stream) :
    Except String ((Expression × PeekableToken) × Stream) := do
  let token := tokenPair.current
  let ((pairs, afterHashTokenPair), s) ← P.parseHashMap tokenPair [] s
  let (rbracePair, s) ← getNextExpectedTokenPair afterHashTokenPair .RBRACE s
  return ((.hashLiteral token pairs, rbracePair), s)

def parseInfixExpressionF (P : ParserRec) (tokenPair : PeekableToken)
    (left : Expression) (s : Stream) :
    Except String ((Expression × PeekableToken) × Stream) := do
  let token := tokenPair.current
  let operator := token.literal
  let precedence := getPrecedence token.type
  let (rightTokenPair, s) := streamNext s
  let ((expression, latestTokenPair), s) ← P.parseExpression rightTokenPair precedence s
  return ((.infixExpr token expression operator left, latestTokenPair), s)

def parseCallExpressionF (P : ParserRec) (tokenPair : PeekableToken)
    (functionIdentifier : Expression) (s : Stream) :
    Except String ((Expression × PeekableToken) × Stream) := do
  let token := tokenPair.current
  let ((argumentsList, latestTokenPair), s) ← parseExpressionListF P .RPAREN s
  return ((.callExpr token functionIdentifier argumentsList, latestTokenPair), s)

def parseIndexExpressionF (P : ParserRec) (tokenPair : PeekableToken)
    (left : Expression) (s : Stream) :
    Except String ((Expression × PeekableToken) × Stream) := do
  let token := tokenPair.current
  let (indexTokenPair, s) := streamNext s
  let ((indexData, indexStateTokenPair), s) ← P.parseExpression indexTokenPair .lowest s
  let (latestTokenPair, s) ← getNextExpectedTokenPair indexStateTokenPair .RBRACKET s
  return ((.indexExpr token left indexData, latestTokenPair), s)

/-- `PrefixParserFns` dispatch table. -/
def PrefixParserFns (P : ParserRec) (t : TokenType) :
    Option (PeekableToken → Stream → Except String ((Expression × PeekableToken) × Stream)) :=
  match t with
  | .IDENT => some parseIdentifierF
  | .INT => some parseIntegerLiteralF
  | .STRING => some parseStringLiteralF
  | .BANG => some (parsePrefixExpressionF P)
  | .MINUS => some (parsePrefixExpressionF P)
  | .TRUE => some parseBooleanExpressionF
  | .FALSE => some parseBooleanExpressionF
  | .LPAREN => some (parseGroupedExpressionF P)
  | .IF => some (parseIfExpressionF P)
  | .FUNCTION => some (parseFunctionLiteralF P)
  | .LBRACKET => some (parseArrayLiteralF P)
  | .LBRACE => some (parseHashLiteralF P)
  | _ => none

/-- `InfixParserFns` dispatch table. -/
def InfixParserFns (P : ParserRec) (t : TokenType) :
    Option (PeekableToken → Expression → Stream →
      Except String ((Expression × PeekableToken) × Stream)) :=
  match t with
  | .EQ => some (parseInfixExpressionF P)
  | .NOT_EQ => some (parseInfixExpressionF P)
  | .LT => some (parseInfixExpressionF P)
  | .GT => some (parseInfixExpressionF P)
  | .PLUS => some (parseInfixExpressionF P)
  | .MINUS => some (parseInfixExpressionF P)
  | .SLASH => some (parseInfixExpressionF P)
  | .ASTERISK => some (parseInfixExpressionF P)
  | .LPAREN => some (parseCallExpressionF P)
  | .LBRACKET => some (parseIndexExpressionF P)
  | _ => none

def parseExpressionF (P : ParserRec) (tokenPair : PeekableToken)
    (precedence : ExpressionPrecedence) (s : Stream) :
    Except String ((Expression × PeekableToken) × Stream) := do
  match PrefixParserFns P tokenPair.current.type with
  | none => .error ("No prefix parser found for " ++ tokenPair.current.type.name ++ ".")
  | some prefixParserFn =>
    let ((expression, resultTokenPair), s) ← prefixParserFn tokenPair s
    P.parseExpressionWithInfix expression resultTokenPair precedence s

def parseExpressionWithInfixF (P : ParserRec) (expression : Expression)
    (tokenPair : PeekableToken) (precedence : ExpressionPrecedence) (s : Stream) :
    Except String ((Expression × PeekableToken) × Stream) := do
  match tokenPair.peek with
  | none => return ((expression, tokenPair), s)
  | some pk =>
    if pk.type = .SEMICOLON ∨ (getPrecedence pk.type).toNat ≤ precedence.toNat then
      return ((expression, tokenPair), s)
    else
      match InfixParserFns P pk.type with
      | none => return ((expression, tokenPair), s)
      | some infixParserFn =>
        let (nextTokenPair, s) := streamNext s
        let ((newExpression, newTokenPair), s) ← infixParserFn nextTokenPair expression s
        P.parseExpressionWithInfix newExpression newTokenPair precedence s

/-- Tie the parser's recursion with fuel: at fuel 0 every entry point
reports `parserFuelError`; at fuel `f + 1` each entry point runs its
source body with all recursive calls at fuel `f`. -/
def parserAt : Nat → ParserRec
  | 0 =>
    { parseStatement := fun _ _ => .error parserFuelError
      parseExpression := fun _ _ _ => .error parserFuelError
      parseExpressionWithInfix := fun _ _ _ _ => .error parserFuelError
      parseStatements := fun _ _ _ => .error parserFuelError
      parseArgumentsList := fun _ _ _ => .error parserFuelError
      parseHashMap := fun _ _ _ => .error parserFuelError
      parseFunctionParametersList := fun _ _ _ => .error parserFuelError }
  | fuel + 1 =>
    let P := parserAt fuel
    { parseStatement := parseStatementF P
      parseExpression := parseExpressionF P
      parseExpressionWithInfix := parseExpressionWithInfixF P
      parseStatements := parseStatementsF P
      parseArgumentsList := parseArgumentsListF P
      parseHashMap := parseHashMapF P
      parseFunctionParametersList := parseFunctionParametersListF P }

/-- The top-level loop of `parseProgram`: parse one statement per
iteration, collecting malformed statements' error messages and advancing
past them; at end of input return the errors if any were collected,
otherwise the accumulated `Program`.  `none` marks loop-fuel exhaustion
(never reached with adequate fuel). -/
def parseProgramAux (P : ParserRec) :
    Nat → PeekableToken → Stream → List Statement → List String →
    Option (Except (List String) Program)
  | 0, _, _, _, _ => none
  | loopFuel + 1, tokenPair, s, statements, errors =>
    if tokenPair.current.type = .EOF then
      some (if errors.isEmpty then .ok ⟨statements⟩ else .error errors)
    else
      match P.parseStatement tokenPair s with
      | .error err =>
        let (nextTokenPair, s') := streamNext s
        parseProgramAux P loopFuel nextTokenPair s' statements (errors ++ [err])
      | .ok (statement, s') =>
        let (nextTokenPair, s'') := streamNext s'
        parseProgramAux P loopFuel nextTokenPair s'' (statements ++ [statement]) errors

/-- `parseProgram(lexer)`, driven from a token list. -/
def parseProgram (fuel : Nat) (tokens : List Token) :
    Option (Except (List String) Program) :=
  let s := mkStream tokens
  let (tokenPair, s') := streamNext s
  parseProgramAux (parserAt fuel) fuel tokenPair s' [] []

/-! ## JavaScript numbers

The interpreter stores JavaScript numbers in its `Integer` objects.  All
values it produces are exact integers except for the results of dividing
by zero, so a number is modelled as an exact integer or one of the
non-finite values `Infinity`, `-Infinity`, `NaN`.  Arithmetic on the
integer payloads is exact (the idealisation of double arithmetic in the
integer-exact range); the non-finite cases follow IEEE 754 exactly. -/

inductive JsNum where
  | int (n : Int)
  | posInf
  | negInf
  | nan
  deriving DecidableEq, Repr

/-- JavaScript's decimal rendering of these numbers (template-literal
interpolation `${value}`). -/
def jsNumToString : JsNum → String
  | .int n => toString n
  | .posInf => "Infinity"
  | .negInf => "-Infinity"
  | .nan => "NaN"

def jsAdd : JsNum → JsNum → JsNum
  | .nan, _ | _, .nan => .nan
  | .posInf, .negInf | .negInf, .posInf => .nan
  | .posInf, _ | _, .posInf => .posInf
  | .negInf, _ | _, .negInf => .negInf
  | .int a, .int b => .int (a + b)

def jsSub : JsNum → JsNum → JsNum
  | .nan, _ | _, .nan => .nan
  | .posInf, .posInf | .negInf, .negInf => .nan
  | .posInf, _ => .posInf
  | .negInf, _ => .negInf
  | _, .posInf => .negInf
  | _, .negInf => .posInf
  | .int a, .int b => .int (a - b)

def jsMul : JsNum → JsNum → JsNum
  | .nan, _ | _, .nan => .nan
  | .posInf, .posInf | .negInf, .negInf => .posInf
  | .posInf, .negInf | .negInf, .posInf => .negInf
  | .posInf, .int b => if 0 < b then .posInf else if b < 0 then .negInf else .nan
  | .int a, .posInf => if 0 < a then .posInf else if a < 0 then .negInf else .nan
  | .negInf, .int b => if 0 < b then .negInf else if b < 0 then .posInf else .nan
  | .int a, .negInf => if 0 < a then .negInf else if a < 0 then .posInf else .nan
  | .int a, .int b => .int (a * b)

/-- `Math.floor(leftValue / rightValue)`: real division followed by the
floor, with the IEEE behaviour at zero divisors and non-finite operands
(`a / 0` is `±Infinity` for `a ≠ 0` and `NaN` for `0 / 0`; `Math.floor`
fixes each non-finite value). -/
def jsFloorDiv : JsNum → JsNum → JsNum
  | .nan, _ | _, .nan => .nan
  | .posInf, .posInf | .posInf, .negInf | .negInf, .posInf | .negInf, .negInf => .nan
  | .posInf, .int b => if 0 ≤ b then .posInf else .negInf
  | .negInf, .int b => if 0 ≤ b then .negInf else .posInf
  | .int _, .posInf | .int _, .negInf => .int 0
  | .int a, .int b =>
    if b = 0 then
      if 0 < a then .posInf else if a < 0 then .negInf else .nan
    else
      .int ⌊(a : ℚ) / (b : ℚ)⌋

def jsNeg : JsNum → JsNum
  | .int n => .int (-n)
  | .posInf => .negInf
  | .negInf => .posInf
  | .nan => .nan

def jsLt : JsNum → JsNum → Bool
  | .nan, _ | _, .nan => false
  | .negInf, .negInf => false
  | .negInf, _ => true
  | _, .negInf => false
  | .posInf, _ => false
  | .int _, .posInf => true
  | .int a, .int b => a < b

def jsGt (a b : JsNum) : Bool := jsLt b a

def jsEqNum : JsNum → JsNum → Bool
  | .nan, _ | _, .nan => false
  | .posInf, .posInf => true
  | .negInf, .negInf => true
  | .int a, .int b => a = b
  | _, _ => false

/-! ## Runtime object model — src/object/object.ts -/

inductive ObjectType where
  | INTEGER | BOOLEAN | NULL | RETURN | ERROR | FUNCTION | BUILTIN | ARRAY | HASH | STRING
  deriving DecidableEq, Repr

/-- The string value of each member of the TypeScript string enum `ObjectType`. -/
def ObjectType.name : ObjectType → String
  | .INTEGER => "INTEGER"
  | .BOOLEAN => "BOOLEAN"
  | .NULL => "NULL"
  | .RETURN => "RETURN"
  | .ERROR => "ERROR"
  | .FUNCTION => "FUNCTION"
  | .BUILTIN => "BUILTIN"
  | .ARRAY => "ARRAY"
  | .HASH => "HASH"
  | .STRING => "STRING"

/-- `HashKey = number | string | boolean`.  Structural equality of the
model coincides with the `Map`'s SameValueZero key equality. -/
inductive HashKey where
  | num (n : JsNum)
  | str (s : String)
  | bool (b : Bool)
  deriving DecidableEq, Repr

/-- The fixed builtins table's seven members. -/
inductive BuiltinName where
  | len | head | last | tail | init | push | prepend
  deriving DecidableEq, Repr

/-! `ObjectUnion` and `Environment`: a `Function` object captures its
defining environment, and an environment stores objects.  A source
environment is a record of bindings plus an optional `outer` chain; the
model represents the chain as the list of its stores, innermost first
(`.mk store (some outer)` becomes `store :: outer`, and an absent outer
becomes the empty chain), and threads the environment value through
evaluation in place of the source's shared mutable records — which
agrees with the source on every program the claims quantify over (none
of them observes mutation through a captured environment after the
capture). -/
inductive Object where
  | integer (value : JsNum)
  | str (value : String)
  | boolean (value : Bool)
  | null
  | ret (value : Object)
  | error (message : String)
  | function (params : List Identifier) (body : Statement)
      (env : List (List (String × Object)))
  | builtin (fn : BuiltinName)
  | array (elements : List Object)
  | hash (pairs : List (HashKey × Object))

/-- One scope's `store` record. -/
abbrev Frame := List (String × Object)

/-- An environment chain, innermost scope first; `[]` is the absent
`outer` of the outermost scope. -/
abbrev Env := List Frame

def Object.type : Object → ObjectType
  | .integer _ => .INTEGER
  | .str _ => .STRING
  | .boolean _ => .BOOLEAN
  | .null => .NULL
  | .ret _ => .RETURN
  | .error _ => .ERROR
  | .function _ _ _ => .FUNCTION
  | .builtin _ => .BUILTIN
  | .array _ => .ARRAY
  | .hash _ => .HASH

/-- `"hashKey" in key` together with the `hashKey` getter: only
`Integer`, `String` and `Boolean` have one. -/
def Object.hashKey? : Object → Option HashKey
  | .integer v => some (.num v)
  | .str s => some (.str s)
  | .boolean b => some (.bool b)
  | _ => none

/-- `staticValues`: the canonical singletons. -/
def TRUE : Object := .boolean true
def FALSE : Object := .boolean false
def NULL : Object := .null

def isError : Object → Bool
  | .error _ => true
  | _ => false

/-- JavaScript `==` between two runtime objects of the same non-integer,
non-string type, as the evaluator uses it: the `Boolean` and `Null`
values in circulation are the canonical singletons, so reference equality
coincides with value equality on them; two composite objects compared
here are distinct allocations in the evaluated programs, hence unequal.
(Aliasing identity of composite objects is not representable in a value
model; no claim depends on it.) -/
def objSameRef : Object → Object → Bool
  | .boolean a, .boolean b => a = b
  | .null, .null => true
  | _, _ => false

/-! ### Environment — the chained-scope `Environment` class -/

def storeLookup : List (String × Object) → String → Option Object
  | [], _ => none
  | (k, v) :: rest, name => if k = name then some v else storeLookup rest name

/-- Assignment `store[name] = value` on a record: overwrite the existing
key or add a new one. -/
def storeInsert : List (String × Object) → String → Object → List (String × Object)
  | [], name, value => [(name, value)]
  | (k, v) :: rest, name, value =>
    if k = name then (k, value) :: rest else (k, v) :: storeInsert rest name value

/-- `get(name)`: `name in this.store ? this.store[name] :
this.outer?.get(name)` — the current scope's store first, else the outer
chain, else absent. -/
def Env.get : Env → String → Option Object
  | [], _ => none
  | store :: outer, name =>
    match storeLookup store name with
    | some v => some v
    | none => Env.get outer name

/-- `set(name, value)`: `this.store[name] = value` — the current scope's
store only, leaving the outer chain untouched.  (The `[]` case stands for
an absent environment, on which the source never calls `set`.) -/
def Env.set : Env → String → Object → Env
  | [], name, value => [[(name, value)]]
  | store :: outer, name, value => storeInsert store name value :: outer

/-! ### Hash pairs — the `Map<HashKey, ObjectUnion>` -/

def mapGet : List (HashKey × Object) → HashKey → Option Object
  | [], _ => none
  | (k, v) :: rest, key => if k = key then some v else mapGet rest key

def mapSet : List (HashKey × Object) → HashKey → Object → List (HashKey × Object)
  | [], key, value => [(key, value)]
  | (k, v) :: rest, key, value =>
    if k = key then (k, value) :: rest else (k, v) :: mapSet rest key value

/-! ### Object rendering — the `toString` methods of the object classes -/

def hashKeyToString : HashKey → String
  | .num n => jsNumToString n
  | .str s => s
  | .bool b => if b then "true" else "false"

def objToString : Nat → Object → String
  | 0, _ => ""
  | fuel + 1, o =>
    match o with
    | .integer v => jsNumToString v
    | .str s => s
    | .boolean b => if b then "true" else "false"
    | .null => "NULL"
    | .ret v => objToString fuel v
    | .error m => "ERROR: " ++ m
    | .function params body _ =>
      "fn (" ++ String.intercalate "," (params.map (·.value)) ++ ") \x7b\n  "
        ++ render fuel (.stmt body) ++ "\n\x7d"
    | .builtin _ => "[builtin function]"
    | .array elements =>
      "[" ++ String.intercalate "," (elements.map (objToString fuel)) ++ "]"
    | .hash pairs =>
      "\x7b " ++ String.intercalate ", "
        (pairs.map (fun kv => hashKeyToString kv.1 ++ " = " ++ objToString fuel kv.2))
        ++ " \x7d"

/-! ## Builtins — src/evaluator/buildins.ts

A builtin either returns an object or raises a host exception: the
one-argument builtins check only `params.length > 1`, so a zero-argument
call reaches `const [param] = params` and dereferences `undefined`
(`param.type`), which in the host throws a `TypeError`.  `BRes.crash`
models that thrown exception. -/

inductive BRes where
  | ok (o : Object)
  | crash

def wrongNumberOfArguments (expected : Nat) (got : Nat) : Object :=
  .error ("Wrong number of arguments. Expected: " ++ toString expected
    ++ ". Got: " ++ toString got)

def unexpectedTypePassed (builtinLabel : String) (t : ObjectType) : Object :=
  .error ("Unexpected type passed to \"" ++ builtinLabel ++ "\" builtin. Called with: "
    ++ t.name)

def lenBuiltin (params : List Object) : BRes :=
  if params.length > 1 then .ok (wrongNumberOfArguments 1 params.length)
  else
    match params.head? with
    | none => .crash
    | some param =>
      match param with
      | .str s => .ok (.integer (.int s.length))
      | .array elements => .ok (.integer (.int elements.length))
      | _ => .ok (unexpectedTypePassed "len" param.type)

def headBuiltin (params : List Object) : BRes :=
  if params.length > 1 then .ok (wrongNumberOfArguments 1 params.length)
  else
    match params.head? with
    | none => .crash
    | some param =>
      match param with
      | .array elements => .ok (elements.head?.getD NULL)
      | _ => .ok (unexpectedTypePassed "head" param.type)

def lastBuiltin (params : List Object) : BRes :=
  if params.length > 1 then .ok (wrongNumberOfArguments 1 params.length)
  else
    match params.head? with
    | none => .crash
    | some param =>
      match param with
      | .array elements => .ok (elements.getLast?.getD NULL)
      | _ => .ok (unexpectedTypePassed "last" param.type)

def tailBuiltin (params : List Object) : BRes :=
  if params.length > 1 then .ok (wrongNumberOfArguments 1 params.length)
  else
    match params.head? with
    | none => .crash
    | some param =>
      match param with
      | .array elements => .ok (.array elements.tail)
      | _ => .ok (unexpectedTypePassed "tail" param.type)

def initBuiltin (params : List Object) : BRes :=
  if params.length > 1 then .ok (wrongNumberOfArguments 1 params.length)
  else
    match params.head? with
    | none => .crash
    | some param =>
      match param with
      | .array elements => .ok (.array elements.dropLast)
      | _ => .ok (unexpectedTypePassed "init" param.type)

def pushBuiltin (params : List Object) : BRes :=
  if params.length ≠ 2 then .ok (wrongNumberOfArguments 2 params.length)
  else
    match params with
    | [array, newEl] =>
      match array with
      | .array elements => .ok (.array (elements ++ [newEl]))
      | _ => .ok (unexpectedTypePassed "push" array.type)
    | _ => .crash

/-- `prepend`'s type-error message names `push` in the source; kept as-is. -/
def prependBuiltin (params : List Object) : BRes :=
  if params.length ≠ 2 then .ok (wrongNumberOfArguments 2 params.length)
  else
    match params with
    | [array, newEl] =>
      match array with
      | .array elements => .ok (.array (newEl :: elements))
      | _ => .ok (unexpectedTypePassed "push" array.type)
    | _ => .crash

def applyBuiltin : BuiltinName → List Object → BRes
  | .len => lenBuiltin
  | .head => headBuiltin
  | .last => lastBuiltin
  | .tail => tailBuiltin
  | .init => initBuiltin
  | .push => pushBuiltin
  | .prepend => prependBuiltin

/-- The key lookup `Builtins[node.value]`. -/
def BuiltinsLookup : String → Option BuiltinName
  | "len" => some .len
  | "head" => some .head
  | "last" => some .last
  | "tail" => some .tail
  | "init" => some .init
  | "push" => some .push
  | "prepend" => some .prepend
  | _ => none

/-! ## Evaluator — `evaluate` and its helpers in src/evaluator

The recursion is tied with fuel exactly as for the parser: `evalNode` at
fuel `f + 1` runs the dispatch of the source `evaluate` with every
recursive call at fuel `f`.  An evaluation outcome is the produced object
together with the environment state (`let` bindings mutate the current
scope), or the propagation of a host exception thrown by a builtin
(`crash`), or fuel exhaustion (`noFuel`, never reached in any theorem). -/

inductive EvalResult where
  | ok (value : Object) (env : Env)
  | crash
  | noFuel

/-- The intermediate result of `evaluateExpressions`: the evaluated list,
or the first `Error` encountered (returned early). -/
inductive EvalListResult where
  | ok (values : List Object) (env : Env)
  | error (e : Object) (env : Env)
  | crash
  | noFuel

def nativeBoolToBooleanObject (input : Bool) : Object :=
  if input then TRUE else FALSE

def evaluateBangOperator (right : Object) : Object :=
  match right with
  | .boolean true => FALSE
  | .boolean false => TRUE
  | .null => TRUE
  | _ => FALSE

def evaluateMinusPrefixOperator (right : Object) : Object :=
  match right with
  | .integer value => .integer (jsNeg value)
  | _ => .error ("Unknown operator: -" ++ right.type.name)

def evaluatePrefixExpression (operator : String) (right : Object) : Object :=
  if operator = "!" then evaluateBangOperator right
  else if operator = "-" then evaluateMinusPrefixOperator right
  else .error ("Unknown operator: " ++ operator ++ right.type.name)

def unknownOperator (l : ObjectType) (operator : String) (r : ObjectType) : Object :=
  .error ("Unknown operator: " ++ l.name ++ " " ++ operator ++ " " ++ r.name)

def evaluateIntegerInfixExpression (leftValue : JsNum) (operator : String)
    (rightValue : JsNum) : Object :=
  if operator = "+" then .integer (jsAdd leftValue rightValue)
  else if operator = "-" then .integer (jsSub leftValue rightValue)
  else if operator = "*" then .integer (jsMul leftValue rightValue)
  else if operator = "/" then .integer (jsFloorDiv leftValue rightValue)
  else if operator = "<" then nativeBoolToBooleanObject (jsLt leftValue rightValue)
  else if operator = ">" then nativeBoolToBooleanObject (jsGt leftValue rightValue)
  else if operator = "==" then nativeBoolToBooleanObject (jsEqNum leftValue rightValue)
  else if operator = "!=" then nativeBoolToBooleanObject (!jsEqNum leftValue rightValue)
  else unknownOperator .INTEGER operator .INTEGER

def evaluateStringInfixExpression (leftValue : String) (operator : String)
    (rightValue : String) : Object :=
  if operator ≠ "+" then unknownOperator .STRING operator .STRING
  else .str (leftValue ++ rightValue)

def evaluateInfixExpression (left : Object) (operator : String) (right : Object) : Object :=
  if left.type ≠ right.type then
    .error ("Unexpected type on operation: " ++ left.type.name ++ " " ++ operator
      ++ " " ++ right.type.name)
  else
    match left, right with
    | .integer leftValue, .integer rightValue =>
      evaluateIntegerInfixExpression leftValue operator rightValue
    | .str leftValue, .str rightValue =>
      evaluateStringInfixExpression leftValue operator rightValue
    | _, _ =>
      if operator = "==" then nativeBoolToBooleanObject (objSameRef left right)
      else if operator = "!=" then nativeBoolToBooleanObject (!objSameRef left right)
      else unknownOperator left.type operator right.type

def evaluateIdentifier (node : Identifier) (env : Env) : Object :=
  match env.get node.value with
  | some value => value
  | none =>
    match BuiltinsLookup node.value with
    | some b => .builtin b
    | none => .error ("Identifier not found: " ++ node.value)

/-- `Array.prototype.at(index.value)` on the elements list: Python-style
negative indexing from the end (ECMAScript `ToIntegerOrInfinity` sends
`NaN` to 0 and either infinity out of range). -/
def jsArrayAt (elements : List Object) (v : JsNum) : Option Object :=
  match v with
  | .posInf => none
  | .negInf => none
  | .nan => elements.get? 0
  | .int n =>
    let k : Int := if n < 0 then (elements.length : Int) + n else n
    if 0 ≤ k then elements.get? k.toNat else none

def evaluateArrayIndexExpression (elements : List Object) (index : Object) : Object :=
  match index with
  | .integer v =>
    match jsArrayAt elements v with
    | some element => element
    | none =>
      .error ("Index access out of bounds. Index: " ++ jsNumToString v
        ++ ". Array len: " ++ toString elements.length)
  | _ => .error ("Invalid index: " ++ index.type.name)

def evaluateHashIndexExpression (pairs : List (HashKey × Object)) (index : Object) :
    Object :=
  match index.hashKey? with
  | none => .error ("Unusable hash key: " ++ index.type.name)
  | some key =>
    match mapGet pairs key with
    | none => NULL
    | some value => value

def evaluateIndexExpression (left : Object) (index : Object) : Object :=
  match left with
  | .array elements => evaluateArrayIndexExpression elements index
  | .hash pairs => evaluateHashIndexExpression pairs index
  | _ => .error ("Index operator not supported: " ++ left.type.name)

/-- The parameter-binding `reduce` of `evaluateFunction`: bind each
parameter name to the argument at its index.  (For an arity-mismatched
call the source stores `undefined` at the missing indices, observable
only in such calls; every claim below concerns arity-matched ones.) -/
def buildStore : List Identifier → Nat → List (String × Object) → List Object →
    List (String × Object)
  | [], _, store, _ => store
  | p :: rest, i, store, params =>
    let store' := match params.get? i with
      | some v => storeInsert store p.value v
      | none => store
    buildStore rest (i + 1) store' params

/-- `evaluateProgram`'s statement loop (the signux store holds the last
statement's value, starting from `NULL`). -/
def evaluateProgramAux (recur : Node → Env → EvalResult) :
    List Statement → Object → Env → EvalResult
  | [], result, env => .ok result env
  | statement :: rest, _, env =>
    match recur (.stmt statement) env with
    | .ok r env' =>
      match r with
      | .ret value => .ok value env'
      | .error m => .ok (.error m) env'
      | _ => evaluateProgramAux recur rest r env'
    | other => other

/-- `evaluateBlockStatements`' loop: `Return` is propagated unwrapped. -/
def evaluateBlockStatementsAux (recur : Node → Env → EvalResult) :
    List Statement → Object → Env → EvalResult
  | [], result, env => .ok result env
  | statement :: rest, _, env =>
    match recur (.stmt statement) env with
    | .ok r env' =>
      match r with
      | .ret value => .ok (.ret value) env'
      | .error m => .ok (.error m) env'
      | _ => evaluateBlockStatementsAux recur rest r env'
    | other => other

/-- `evaluateExpressions`: evaluate left to right, returning the first
`Error` immediately. -/
def evaluateExpressionsAux (recur : Node → Env → EvalResult) :
    List Expression → List Object → Env → EvalListResult
  | [], acc, env => .ok acc env
  | e :: rest, acc, env =>
    match recur (.expr e) env with
    | .ok value env' =>
      if isError value then .error value env'
      else evaluateExpressionsAux recur rest (acc ++ [value]) env'
    | .crash => .crash
    | .noFuel => .noFuel

/-- `evaluateHashLiteral`'s pair loop. -/
def evaluateHashLiteralAux (recur : Node → Env → EvalResult) :
    List (Expression × Expression) → List (HashKey × Object) → Env → EvalResult
  | [], pairs, env => .ok (.hash pairs) env
  | (keyNode, valueNode) :: rest, pairs, env =>
    match recur (.expr keyNode) env with
    | .ok key env' =>
      if isError key then .ok key env'
      else
        match key.hashKey? with
        | none => .ok (.error ("Unusable hash key: " ++ key.type.name)) env'
        | some hk =>
          match recur (.expr valueNode) env' with
          | .ok value env'' =>
            if isError value then .ok value env''
            else evaluateHashLiteralAux recur rest (mapSet pairs hk value) env''
          | other => other
    | other => other

/-- `evaluateIfExpression`'s truthiness test `condition != NULL &&
condition != FALSE` (loose equality against the singletons). -/
def isNullOrFalse : Object → Bool
  | .null => true
  | .boolean false => true
  | _ => false

def evaluateIfExpressionAux (recur : Node → Env → EvalResult) (condition : Expression)
    (consequence : Statement) (alternative : Option Statement) (env : Env) : EvalResult :=
  match recur (.expr condition) env with
  | .ok conditionValue env' =>
    if isError conditionValue then .ok conditionValue env'
    else if !isNullOrFalse conditionValue then recur (.stmt consequence) env'
    else
      match alternative with
      | some alt => recur (.stmt alt) env'
      | none => .ok NULL env'
  | other => other

/-- `evaluateFunction`: apply a `Function` (fresh environment enclosed by
the captured one, parameters bound positionally, a `Return` result
unwrapped) or a `Builtin` (native call — whose host exception, if any,
propagates); anything else is the `Not a function` error.  `env` is the
caller's environment, unchanged by the call itself. -/
def evaluateFunctionApply (fuel : Nat) (recur : Node → Env → EvalResult) (fn : Object)
    (params : List Object) (env : Env) : EvalResult :=
  match fn with
  | .function fnParams body fnEnv =>
    let initialStore := buildStore fnParams 0 [] params
    let callEnv : Env := initialStore :: fnEnv
    match recur (.stmt body) callEnv with
    | .ok evaluated _ =>
      match evaluated with
      | .ret value => .ok value env
      | _ => .ok evaluated env
    | other => other
  | .builtin b =>
    match applyBuiltin b params with
    | .ok o => .ok o env
    | .crash => .crash
  | _ => .ok (.error ("Not a function: " ++ objToString fuel fn)) env

/-- One dispatch step of `evaluate` (src/evaluator, part_018), with
`recur` standing for the recursive calls.  The source's `default` branch
returns `NULL`; the model's `Node` covers every union member, so there is
no unreachable default. -/
def evalCase (fuel : Nat) (recur : Node → Env → EvalResult) :
    Node → Env → EvalResult
  | .program p, env => evaluateProgramAux recur p.statements NULL env
  | .stmt (.exprStmt _ expression), env => recur (.expr expression) env
  | .stmt (.block _ statements), env => evaluateBlockStatementsAux recur statements NULL env
  | .stmt (.returnStmt _ returnValue), env =>
    match recur (.expr returnValue) env with
    | .ok evaluated env' =>
      if isError evaluated then .ok evaluated env' else .ok (.ret evaluated) env'
    | other => other
  | .stmt (.letStmt _ name value), env =>
    match recur (.expr value) env with
    | .ok v env' =>
      if isError v then .ok v env' else .ok NULL (env'.set name.value v)
    | other => other
  | .expr (.integerLiteral _ value), env => .ok (.integer (.int value)) env
  | .expr (.stringLiteral _ value), env => .ok (.str value) env
  | .expr (.arrayLiteral _ elements), env =>
    match evaluateExpressionsAux recur elements [] env with
    | .ok values env' => .ok (.array values) env'
    | .error e env' => .ok e env'
    | .crash => .crash
    | .noFuel => .noFuel
  | .expr (.hashLiteral _ pairs), env => evaluateHashLiteralAux recur pairs [] env
  | .expr (.booleanLiteral _ value), env => .ok (nativeBoolToBooleanObject value) env
  | .expr (.prefixExpr _ operator right), env =>
    match recur (.expr right) env with
    | .ok r env' =>
      if isError r then .ok r env' else .ok (evaluatePrefixExpression operator r) env'
    | other => other
  | .expr (.infixExpr _ right operator left), env =>
    match recur (.expr left) env with
    | .ok l env1 =>
      if isError l then .ok l env1
      else
        match recur (.expr right) env1 with
        | .ok r env2 =>
          if isError r then .ok r env2
          else .ok (evaluateInfixExpression l operator r) env2
        | other => other
    | other => other
  | .expr (.ifExpr _ condition consequence alternative), env =>
    evaluateIfExpressionAux recur condition consequence alternative env
  | .expr (.identifier id), env => .ok (evaluateIdentifier id env) env
  | .expr (.functionLiteral _ parameters body), env =>
    .ok (.function parameters body env) env
  | .expr (.callExpr _ functionIdentifier functionArguments), env =>
    match recur (.expr functionIdentifier) env with
    | .ok value env1 =>
      if isError value then .ok value env1
      else
        match evaluateExpressionsAux recur functionArguments [] env1 with
        | .ok params env2 => evaluateFunctionApply fuel recur value params env2
        | .error e env2 => .ok e env2
        | .crash => .crash
        | .noFuel => .noFuel
    | other => other
  | .expr (.indexExpr _ left index), env =>
    match recur (.expr left) env with
    | .ok l env1 =>
      if isError l then .ok l env1
      else
        match recur (.expr index) env1 with
        | .ok idx env2 =>
          if isError idx then .ok idx env2
          else .ok (evaluateIndexExpression l idx) env2
        | other => other
    | other => other

def evalNode : Nat → Node → Env → EvalResult
  | 0, _, _ => .noFuel
  | fuel + 1, node, env => evalCase fuel (evalNode fuel) node env

/-! ## Shared concrete fixtures for the theorems -/

/-- An arbitrary token for nodes whose token plays no role in evaluation. -/
def tk : Token := { type := .LPAREN, literal := "(" }

def emptyEnv : Env := [[]]

/-- Does the parse result carry a `Program`? -/
def resultHasProgram : Option (Except (List String) Program) → Bool
  | some (.ok _) => true
  | _ => false

/-! ## Claim theorems -/

/-- C1: for every infix expression node, the left operand is evaluated
first; if it yields an `Error`, that `Error` is the whole infix
expression's result, unchanged, and the right operand is not evaluated —
the resulting environment is exactly the one left behind by the left
operand, so no binding or other effect of the right sub-expression
occurs; symmetrically, if the left operand succeeds and the right yields
an `Error`, that `Error` is propagated unchanged. -/
theorem infixExpr_short_circuits_operand_errors
    (fuel : Nat) (tok : Token) (l r : Expression) (op : String) (env : Env) :
    (∀ m env₁, evalNode fuel (.expr l) env = .ok (.error m) env₁ →
      evalNode (fuel + 1) (.expr (.infixExpr tok r op l)) env = .ok (.error m) env₁) ∧
    (∀ v env₁ m env₂, evalNode fuel (.expr l) env = .ok v env₁ → isError v = false →
      evalNode fuel (.expr r) env₁ = .ok (.error m) env₂ →
      evalNode (fuel + 1) (.expr (.infixExpr tok r op l)) env = .ok (.error m) env₂) := by
  constructor
  · intro m env₁ h
    simp [evalNode, evalCase, h, isError]
  · intro v env₁ m env₂ h₁ hv h₂
    simp only [evalNode, evalCase, h₁, hv, Bool.false_eq_true, if_false, h₂]
    simp [isError]

theorem infixExpr_short_circuits_operand_errors_witness :
    evalNode 2 (.expr (.infixExpr tk (.identifier ⟨tk, "y"⟩) "+" (.identifier ⟨tk, "x"⟩)))
        emptyEnv
      = .ok (.error "Identifier not found: x") emptyEnv ∧
    evalNode 2 (.expr (.infixExpr tk (.identifier ⟨tk, "x"⟩) "+" (.integerLiteral tk 1)))
        emptyEnv
      = .ok (.error "Identifier not found: x") emptyEnv := by
  constructor
  · exact (infixExpr_short_circuits_operand_errors 1 tk (.identifier ⟨tk, "x"⟩)
      (.identifier ⟨tk, "y"⟩) "+" emptyEnv).1 "Identifier not found: x" emptyEnv (by
        simp [evalNode, evalCase, evaluateIdentifier, Env.get, storeLookup,
          BuiltinsLookup, emptyEnv])
  · exact (infixExpr_short_circuits_operand_errors 1 tk (.integerLiteral tk 1)
      (.identifier ⟨tk, "x"⟩) "+" emptyEnv).2 (.integer (.int 1)) emptyEnv
      "Identifier not found: x" emptyEnv
      (by simp [evalNode, evalCase]) (by simp [isError])
      (by simp [evalNode, evalCase, evaluateIdentifier, Env.get, storeLookup,
        BuiltinsLookup, emptyEnv])

/-- C2: the one-argument builtins (`len`, `head`, `last`, `tail`, `init`)
validate only `params.length > 1`, so a zero-argument call reaches
`const [param] = params` and dereferences `undefined`, raising a host
`TypeError` instead of returning an `Error` value; the two-argument
builtins (`push`, `prepend`) check `params.length !== 2` and do return an
`Error` on zero arguments.  Evaluating the call `len()` therefore
propagates a host exception out of the evaluator. -/
theorem builtins_zero_arg_call_crashes :
    applyBuiltin .len [] = .crash ∧
    applyBuiltin .head [] = .crash ∧
    applyBuiltin .last [] = .crash ∧
    applyBuiltin .tail [] = .crash ∧
    applyBuiltin .init [] = .crash ∧
    applyBuiltin .push [] = .ok (wrongNumberOfArguments 2 0) ∧
    applyBuiltin .prepend [] = .ok (wrongNumberOfArguments 2 0) ∧
    evalNode 4 (.expr (.callExpr tk (.identifier ⟨tk, "len"⟩) [])) emptyEnv = .crash :=
  ⟨rfl, rfl, rfl, rfl, rfl, rfl, rfl, rfl⟩

/-- C3 (counterexample to the claim as stated): on the input
`"let y 10; let 10;"` the functional `parseProgram` returns the collected
error list alone — its `Result` carries no `Program` alongside the
errors, refuting "parseProgram returns both the accumulated Program and
the collected error list". -/
theorem parseProgram_errors_carry_no_program :
    parseProgram 50 (lexTokens "let y 10; let 10;")
      = some (.error ["Next token expected to be =, but found 10 instead.",
                      "Next token expected to be IDENT, but found 10 instead."]) ∧
    resultHasProgram (parseProgram 50 (lexTokens "let y 10; let 10;")) = false :=
  ⟨rfl, rfl⟩

/-- C3 (amended): parsing is best-effort and non-fatal — each of the two
malformed `let` statements contributes exactly one error message, in
source order, each starting with "Next token expected to be", and the
top-level loop advances past them; `parseProgram` returns the accumulated
`Program` when no error was collected and the collected error list alone
otherwise. -/
theorem parseProgram_accumulates_both_errors :
    parseProgram 50 (lexTokens "let y 10; let 10;")
      = some (.error ["Next token expected to be =, but found 10 instead.",
                      "Next token expected to be IDENT, but found 10 instead."]) ∧
    "Next token expected to be".data.isPrefixOf
      "Next token expected to be =, but found 10 instead.".data = true ∧
    "Next token expected to be".data.isPrefixOf
      "Next token expected to be IDENT, but found 10 instead.".data = true ∧
    resultHasProgram (parseProgram 50 (lexTokens "let y = 10; let z = 2;")) = true :=
  ⟨rfl, rfl, rfl, rfl⟩

/-- C4: the Pratt parser orders the precedence ranks
`LOWEST < EQUALS < LESSGREATER < SUM < PRODUCT < PREFIX < CALL < INDEX`,
and under them `"-a * b"` parses and renders to `"((-a) * b)"` while
`"a + b * c + d / e - f"` renders to
`"(((a + (b * c)) + (d / e)) - f)"`. -/
theorem pratt_precedence_golden_renders :
    ExpressionPrecedence.lowest.toNat < ExpressionPrecedence.equals.toNat ∧
    ExpressionPrecedence.equals.toNat < ExpressionPrecedence.lessgreater.toNat ∧
    ExpressionPrecedence.lessgreater.toNat < ExpressionPrecedence.sum.toNat ∧
    ExpressionPrecedence.sum.toNat < ExpressionPrecedence.product.toNat ∧
    ExpressionPrecedence.product.toNat < ExpressionPrecedence.prefixOp.toNat ∧
    ExpressionPrecedence.prefixOp.toNat < ExpressionPrecedence.call.toNat ∧
    ExpressionPrecedence.call.toNat < ExpressionPrecedence.index.toNat ∧
    (parseProgram 50 (lexTokens "-a * b")).map (Except.map (renderProgram 50))
      = some (.ok "((-a) * b)") ∧
    (parseProgram 50 (lexTokens "a + b * c + d / e - f")).map (Except.map (renderProgram 50))
      = some (.ok "(((a + (b * c)) + (d / e)) - f)") := by
  refine ⟨by decide, by decide, by decide, by decide, by decide, by decide, by decide,
    rfl, rfl⟩

/-- C5: truthiness is uniform.  The bang operator yields the canonical
`TRUE` exactly when its operand is the canonical `FALSE` or the canonical
`Null`, and the canonical `FALSE` for every other value — including
`Integer 0` and every string; an if-expression runs its consequence
exactly when the condition's value is neither the canonical `Null` nor
the canonical `FALSE` (otherwise the alternative, or `NULL` without
one). -/
theorem truthiness_uniform :
    (∀ v : Object, evaluateBangOperator v = TRUE ↔ (v = FALSE ∨ v = NULL)) ∧
    (∀ v : Object, v ≠ FALSE → v ≠ NULL → evaluateBangOperator v = FALSE) ∧
    evaluateBangOperator (.integer (.int 0)) = FALSE ∧
    (∀ s, evaluateBangOperator (.str s) = FALSE) ∧
    (∀ (fuel : Nat) (tok : Token) (condition : Expression) (consequence : Statement)
        (alternative : Option Statement) (env : Env) (c : Object) (env' : Env),
      evalNode fuel (.expr condition) env = .ok c env' → isError c = false →
      (c ≠ NULL ∧ c ≠ FALSE →
        evalNode (fuel + 1) (.expr (.ifExpr tok condition consequence alternative)) env
          = evalNode fuel (.stmt consequence) env') ∧
      ((c = NULL ∨ c = FALSE) →
        evalNode (fuel + 1) (.expr (.ifExpr tok condition consequence alternative)) env
          = match alternative with
            | some alt => evalNode fuel (.stmt alt) env'
            | none => .ok NULL env')) := by
  refine ⟨?_, ?_, rfl, fun s => rfl, ?_⟩
  · intro v
    cases v with
    | boolean b => cases b <;> simp [evaluateBangOperator, TRUE, FALSE, NULL]
    | null => simp [evaluateBangOperator, TRUE, NULL, FALSE]
    | _ => simp [evaluateBangOperator, TRUE, FALSE, NULL]
  · intro v h1 h2
    cases v with
    | boolean b =>
      cases b
      · exact absurd rfl h1
      · rfl
    | null => exact absurd rfl h2
    | _ => rfl
  · intro fuel tok condition consequence alternative env c env' hc hcErr
    have hstep :
        evalNode (fuel + 1) (.expr (.ifExpr tok condition consequence alternative)) env
          = (if !isNullOrFalse c then evalNode fuel (.stmt consequence) env'
             else match alternative with
               | some alt => evalNode fuel (.stmt alt) env'
               | none => .ok NULL env') := by
      simp only [evalNode, evalCase, evaluateIfExpressionAux, hc, hcErr,
        Bool.false_eq_true, if_false]
    constructor
    · rintro ⟨hn, hf⟩
      have ht : isNullOrFalse c = false := by
        cases c with
        | boolean b =>
          cases b
          · exact absurd rfl hf
          · rfl
        | null => exact absurd rfl hn
        | _ => rfl
      rw [hstep, ht]
      rfl
    · intro h
      have ht : isNullOrFalse c = true := by
        rcases h with h | h <;> subst h <;> rfl
      rw [hstep, ht]
      rfl

theorem truthiness_uniform_witness :
    evaluateBangOperator (.str "") = FALSE ∧
    evalNode 2 (.expr (.ifExpr tk (.booleanLiteral tk true) (.block tk []) none)) emptyEnv
      = evalNode 1 (.stmt (.block tk [])) emptyEnv := by
  constructor
  · exact truthiness_uniform.2.2.2.1 ""
  · exact (truthiness_uniform.2.2.2.2 1 tk (.booleanLiteral tk true) (.block tk []) none
      emptyEnv TRUE emptyEnv (by simp [evalNode, evalCase, nativeBoolToBooleanObject])
      (by rfl)).1 ⟨by simp [TRUE, NULL], by simp [TRUE, FALSE]⟩

/-- C6: on two finite integer operands with a nonzero divisor, `+`, `-`
and `*` evaluate to the exact integer sum, difference and product, and
`/` evaluates to the unique integer `q` with `q ≤ a / b < q + 1` in the
rationals — the floor of the rational quotient, i.e. division truncated
toward negative infinity. -/
theorem evaluator_integer_arithmetic (a b : Int) (hb : b ≠ 0) :
    evaluateIntegerInfixExpression (.int a) "+" (.int b) = .integer (.int (a + b)) ∧
    evaluateIntegerInfixExpression (.int a) "-" (.int b) = .integer (.int (a - b)) ∧
    evaluateIntegerInfixExpression (.int a) "*" (.int b) = .integer (.int (a * b)) ∧
    ∃ q : Int, evaluateIntegerInfixExpression (.int a) "/" (.int b) = .integer (.int q) ∧
      (q : ℚ) ≤ (a : ℚ) / (b : ℚ) ∧ (a : ℚ) / (b : ℚ) < (q : ℚ) + 1 := by
  refine ⟨rfl, rfl, rfl, ⌊(a : ℚ) / (b : ℚ)⌋, ?_, Int.floor_le _, Int.lt_floor_add_one _⟩
  simp [evaluateIntegerInfixExpression, jsFloorDiv, hb]

theorem evaluator_integer_arithmetic_witness :
    (2 : Int) ≠ 0 ∧
    (evaluateIntegerInfixExpression (.int (-7)) "+" (.int 2) = .integer (.int (-7 + 2)) ∧
     evaluateIntegerInfixExpression (.int (-7)) "-" (.int 2) = .integer (.int (-7 - 2)) ∧
     evaluateIntegerInfixExpression (.int (-7)) "*" (.int 2) = .integer (.int (-7 * 2)) ∧
     ∃ q : Int, evaluateIntegerInfixExpression (.int (-7)) "/" (.int 2) = .integer (.int q) ∧
       (q : ℚ) ≤ ((-7 : Int) : ℚ) / ((2 : Int) : ℚ) ∧
       ((-7 : Int) : ℚ) / ((2 : Int) : ℚ) < (q : ℚ) + 1) :=
  ⟨by decide, evaluator_integer_arithmetic (-7) 2 (by decide)⟩

/-- C7: array indexing resolves an integer index Python-style — `0 ≤ i <
n` returns the element at `i`, `-n ≤ i < 0` the element at `n + i`, and
any other integer the out-of-bounds `Error` naming the index and the
length; a non-`Integer` index yields the `Invalid index` `Error`. -/
theorem array_index_resolution (elements : List Object) (n : Int) :
    (∀ el, 0 ≤ n → elements.get? n.toNat = some el →
      evaluateArrayIndexExpression elements (.integer (.int n)) = el) ∧
    (∀ el, n < 0 → 0 ≤ (elements.length : Int) + n →
      elements.get? ((elements.length : Int) + n).toNat = some el →
      evaluateArrayIndexExpression elements (.integer (.int n)) = el) ∧
    ((elements.length : Int) ≤ n ∨ n < -(elements.length : Int) →
      evaluateArrayIndexExpression elements (.integer (.int n))
        = .error ("Index access out of bounds. Index: " ++ toString n
            ++ ". Array len: " ++ toString elements.length)) ∧
    (∀ index : Object, index.type ≠ .INTEGER →
      evaluateArrayIndexExpression elements index
        = .error ("Invalid index: " ++ index.type.name)) := by
  refine ⟨?_, ?_, ?_, ?_⟩
  · intro el h0 hget
    simp only [evaluateArrayIndexExpression, jsArrayAt]
    rw [if_neg (by omega : ¬ n < 0), if_pos h0, hget]
  · intro el hneg hlen hget
    simp only [evaluateArrayIndexExpression, jsArrayAt]
    rw [if_pos hneg, if_pos hlen, hget]
  · intro h
    simp only [evaluateArrayIndexExpression, jsArrayAt, jsNumToString]
    rcases h with h | h
    · rw [if_neg (by omega : ¬ n < 0), if_pos (by omega : (0 : Int) ≤ n),
        List.get?_eq_none.mpr (by omega : elements.length ≤ n.toNat)]
    · rw [if_pos (by omega : n < 0),
        if_neg (by omega : ¬ (0 : Int) ≤ (elements.length : Int) + n)]
  · intro index hty
    cases index <;> first
      | (exact absurd rfl hty)
      | rfl

theorem array_index_resolution_witness :
    evaluateArrayIndexExpression
      [.integer (.int 10), .integer (.int 20), .integer (.int 30)] (.integer (.int 1))
      = .integer (.int 20) ∧
    evaluateArrayIndexExpression
      [.integer (.int 10), .integer (.int 20), .integer (.int 30)] (.integer (.int (-1)))
      = .integer (.int 30) ∧
    evaluateArrayIndexExpression
      [.integer (.int 10), .integer (.int 20), .integer (.int 30)] (.integer (.int 3))
      = .error "Index access out of bounds. Index: 3. Array len: 3" ∧
    evaluateArrayIndexExpression
      [.integer (.int 10), .integer (.int 20), .integer (.int 30)] (.str "x")
      = .error "Invalid index: STRING" := by
  refine ⟨?_, ?_, ?_, ?_⟩
  · exact (array_index_resolution _ 1).1 (.integer (.int 20)) (by decide) rfl
  · exact (array_index_resolution _ (-1)).2.1 (.integer (.int 30)) (by decide) (by decide) rfl
  · exact (array_index_resolution _ 3).2.2.1 (by left; decide)
  · exact (array_index_resolution _ 3).2.2.2 (.str "x") (by decide)

/-- C8: hash indexing — a non-hashable index (anything but `Integer`,
`String`, `Boolean`) yields the `Unusable hash key` `Error`; a hashable
index whose hash key is present yields the stored value; a hashable
index whose hash key is absent yields the canonical `Null`, not an
`Error`. -/
theorem hash_index_resolution (pairs : List (HashKey × Object)) (k : Object) :
    (k.hashKey? = none ↔ (k.type ≠ .INTEGER ∧ k.type ≠ .STRING ∧ k.type ≠ .BOOLEAN)) ∧
    (k.hashKey? = none →
      evaluateHashIndexExpression pairs k
        = .error ("Unusable hash key: " ++ k.type.name)) ∧
    (∀ hk v, k.hashKey? = some hk → mapGet pairs hk = some v →
      evaluateHashIndexExpression pairs k = v) ∧
    (∀ hk, k.hashKey? = some hk → mapGet pairs hk = none →
      evaluateHashIndexExpression pairs k = NULL) := by
  refine ⟨?_, ?_, ?_, ?_⟩
  · cases k <;> simp [Object.hashKey?, Object.type]
  · intro h
    simp only [evaluateHashIndexExpression, h]
  · intro hk v hkey hget
    simp only [evaluateHashIndexExpression, hkey, hget]
  · intro hk hkey hget
    simp only [evaluateHashIndexExpression, hkey, hget]

theorem hash_index_resolution_witness :
    evaluateHashIndexExpression [(.str "foo", .integer (.int 5))] (.str "foo")
      = .integer (.int 5) ∧
    evaluateHashIndexExpression [(.str "foo", .integer (.int 5))] (.str "bar") = NULL ∧
    evaluateHashIndexExpression [(.str "foo", .integer (.int 5))] .null
      = .error "Unusable hash key: NULL" := by
  refine ⟨?_, ?_, ?_⟩
  · exact (hash_index_resolution _ (.str "foo")).2.2.1 (.str "foo") (.integer (.int 5))
      rfl rfl
  · exact (hash_index_resolution _ (.str "bar")).2.2.2 (.str "bar") rfl rfl
  · exact (hash_index_resolution _ .null).2.1 rfl

/-! Record-store lemmas shared by the environment contract. -/

theorem storeLookup_storeInsert_self (store : List (String × Object)) (name : String)
    (value : Object) : storeLookup (storeInsert store name value) name = some value := by
  induction store with
  | nil => simp [storeInsert, storeLookup]
  | cons kv rest ih =>
    obtain ⟨k, v⟩ := kv
    by_cases h : k = name
    · simp [storeInsert, storeLookup, h]
    · simp [storeInsert, storeLookup, h, ih]

theorem storeLookup_storeInsert_ne (store : List (String × Object)) (name m : String)
    (value : Object) (h : m ≠ name) :
    storeLookup (storeInsert store name value) m = storeLookup store m := by
  have h' : name ≠ m := Ne.symm h
  induction store with
  | nil => simp [storeInsert, storeLookup, h']
  | cons kv rest ih =>
    obtain ⟨k, v⟩ := kv
    by_cases hk : k = name
    · subst hk
      simp [storeInsert, storeLookup, h']
    · simp [storeInsert, storeLookup, hk, ih]

/-- C9: the environment respects lexical scope as a frame condition —
`get` returns the innermost scope's binding when the current store
defines the name and recurses to the outer chain only when it does not,
yielding absent when no scope defines it; `set` inserts or overwrites in
the current scope's store only: the outer chain is untouched, the set
name then resolves to the new value, and every other name resolves
exactly as before (so every binding of every outer scope is
unchanged). -/
theorem environment_scope_contract :
    (∀ (store : Frame) (outer : Env) (name : String) (v : Object),
      storeLookup store name = some v → Env.get (store :: outer) name = some v) ∧
    (∀ (store : Frame) (outer : Env) (name : String),
      storeLookup store name = none → Env.get (store :: outer) name = Env.get outer name) ∧
    (∀ name : String, Env.get ([] : Env) name = none) ∧
    (∀ (store : Frame) (outer : Env) (name : String) (value : Object),
      (Env.set (store :: outer) name value).tail = outer) ∧
    (∀ (store : Frame) (outer : Env) (name : String) (value : Object),
      Env.get (Env.set (store :: outer) name value) name = some value) ∧
    (∀ (store : Frame) (outer : Env) (name m : String) (value : Object), m ≠ name →
      Env.get (Env.set (store :: outer) name value) m = Env.get (store :: outer) m) := by
  refine ⟨?_, ?_, ?_, ?_, ?_, ?_⟩
  · intro store outer name v h
    simp [Env.get, h]
  · intro store outer name h
    simp [Env.get, h]
  · intro name
    rfl
  · intro store outer name value
    rfl
  · intro store outer name value
    simp [Env.set, Env.get, storeLookup_storeInsert_self]
  · intro store outer name m value hm
    simp [Env.set, Env.get, storeLookup_storeInsert_ne store name m value hm]

theorem environment_scope_contract_witness :
    Env.get [[("x", .integer (.int 1))], [("x", .integer (.int 9)), ("y", .integer (.int 2))]]
        "x" = some (.integer (.int 1)) ∧
    Env.get [[("x", .integer (.int 1))], [("x", .integer (.int 9)), ("y", .integer (.int 2))]]
        "y" = Env.get [[("x", .integer (.int 9)), ("y", .integer (.int 2))]] "y" ∧
    Env.get (Env.set [[("x", .integer (.int 1))]] "z" (.integer (.int 7))) "x"
      = Env.get [[("x", .integer (.int 1))]] "x" := by
  refine ⟨?_, ?_, ?_⟩
  · exact environment_scope_contract.1 [("x", .integer (.int 1))]
      [[("x", .integer (.int 9)), ("y", .integer (.int 2))]] "x" (.integer (.int 1)) rfl
  · exact environment_scope_contract.2.1 [("x", .integer (.int 1))]
      [[("x", .integer (.int 9)), ("y", .integer (.int 2))]] "y" rfl
  · exact environment_scope_contract.2.2.2.2.2 [("x", .integer (.int 1))] [] "z" "x"
      (.integer (.int 7)) (by decide)

/-- C10: dividing an integer by integer `0` does not produce an `Error`
value — the result is an `Integer` object whose payload is the host value
of `Math.floor(a / 0)`: `Infinity` for positive `a`, `-Infinity` for
negative `a`, `NaN` for `0 / 0` — so a division by zero silently escapes
the value-based error channel, as the evaluation of `7 / 0` to
`Integer(Infinity)` shows end to end. -/
theorem division_by_zero_escapes_error_channel (a : Int) :
    evaluateIntegerInfixExpression (.int a) "/" (.int 0)
      = .integer (if 0 < a then .posInf else if a < 0 then .negInf else .nan) ∧
    isError (evaluateIntegerInfixExpression (.int a) "/" (.int 0)) = false ∧
    evalNode 2 (.expr (.infixExpr tk (.integerLiteral tk 0) "/" (.integerLiteral tk 7)))
        emptyEnv = .ok (.integer .posInf) emptyEnv := by
  refine ⟨?_, ?_, rfl⟩
  · simp [evaluateIntegerInfixExpression, jsFloorDiv]
  · simp only [evaluateIntegerInfixExpression, jsFloorDiv]
    split <;> rfl

end Monkey
